import Mathlib

/-!
Shallow embedding of the zero-copy stream layer
(`zero_copy_stream_impl.h` / `zero_copy_stream_impl.cpp`).

C++ `int` and `long` values are modelled as `Int`; byte buffers as
`List UInt8`.  A stateful C++ object becomes a Lean structure, and every
method becomes a function that takes the object state (plus the state of
the underlying source/sink, threaded through a type parameter `σ`) and
returns its results together with the updated states.  The `printf`
diagnostics in the C++ code do not change any state and are omitted.
-/

set_option maxRecDepth 4000

/-- Default block size, `kDefaultBlockSize = 8192` (impl line 10). -/
def kDefaultBlockSize : Int := 8192

/-- Abstract `CopyingInputStream` interface over a source-state type `σ`:
`read s n` models `Read(buffer, n)` and yields the `int` return value
(positive byte count, `0` for EOF, negative for error), the bytes deposited
in the caller's buffer, and the successor source state.  `skip s n` models
the virtual `Skip(count)` call and yields the count actually skipped plus
the successor state. -/
structure CopyingInputStream (σ : Type) where
  read : σ → Int → Int × List UInt8 × σ
  skip : σ → Int → Int × σ

/-- Loop body of the default `CopyingInputStream::Skip` (impl lines 15-28):
while `skipped < count`, read `min (count - skipped) 4096` bytes into a
scratch buffer; stop with the partial total on a non-positive read. -/
def defaultSkipAux {σ : Type} (read : σ → Int → Int × List UInt8 × σ)
    (s : σ) (count skipped : Int) : Int × σ :=
  if h : skipped < count then
    match read s (min (count - skipped) 4096) with
    | (bytes, _, s') =>
      if h2 : bytes ≤ 0 then
        (skipped, s')
      else
        defaultSkipAux read s' count (skipped + bytes)
  else
    (skipped, s)
termination_by (count - skipped).toNat
decreasing_by omega

/-- Default implementation `CopyingInputStream::Skip` (impl lines 15-28). -/
def CopyingInputStream.defaultSkip {σ : Type}
    (read : σ → Int → Int × List UInt8 × σ) (s : σ) (count : Int) :
    Int × σ :=
  defaultSkipAux read s count 0

/-- State of `CopyingInputStreamAdaptor` (header lines 48-103).  The
`scoped_array<uint8_t> buffer_` is `none` when the C++ pointer is NULL. -/
structure CopyingInputStreamAdaptor where
  failed_ : Bool
  position_ : Int
  buffer_ : Option (List UInt8)
  buffer_size_ : Int
  buffer_used_ : Int
  backup_bytes_ : Int
deriving DecidableEq

namespace CopyingInputStreamAdaptor

/-- Constructor (impl lines 30-38): `buffer_size_` is `block_size` when
positive, else `kDefaultBlockSize`. -/
def make (block_size : Int) : CopyingInputStreamAdaptor :=
  { failed_ := false
    position_ := 0
    buffer_ := none
    buffer_size_ := if block_size > 0 then block_size else kDefaultBlockSize
    buffer_used_ := 0
    backup_bytes_ := 0 }

/-- `AllocateBufferIfNeeded` (impl lines 125-129): allocate a fresh
`buffer_size_`-byte array when `buffer_` is NULL. -/
def AllocateBufferIfNeeded (a : CopyingInputStreamAdaptor) :
    CopyingInputStreamAdaptor :=
  match a.buffer_ with
  | some _ => a
  | none => { a with buffer_ := some (List.replicate a.buffer_size_.toNat 0) }

/-- `FreeBuffer` (impl lines 131-137): reset `buffer_used_` and release the
buffer (the `backup_bytes_ != 0` diagnostic only prints). -/
def FreeBuffer (a : CopyingInputStreamAdaptor) : CopyingInputStreamAdaptor :=
  { a with buffer_used_ := 0, buffer_ := none }

/-- `CopyingInputStreamAdaptor::Next` (impl lines 46-78).  On the replay
path the returned view is `buffer_ + buffer_used_ - backup_bytes_` with
length `backup_bytes_`, i.e. the byte range
`[buffer_used_ - backup_bytes_, buffer_used_)` of the buffer.  On the read
path the view is the first `Read`-result bytes of the buffer. -/
def Next {σ : Type} (src : CopyingInputStream σ)
    (a : CopyingInputStreamAdaptor) (s : σ) :
    Option (List UInt8) × CopyingInputStreamAdaptor × σ :=
  if a.failed_ then (none, a, s)
  else
    let a1 := a.AllocateBufferIfNeeded
    if 0 < a1.backup_bytes_ then
      (some (((a1.buffer_.getD []).take a1.buffer_used_.toNat).drop
          (a1.buffer_used_ - a1.backup_bytes_).toNat),
        { a1 with backup_bytes_ := 0 }, s)
    else
      let r := src.read s a1.buffer_size_
      if r.1 ≤ 0 then
        (none,
          { a1 with
            failed_ := a1.failed_ || decide (r.1 < 0)
            buffer_used_ := 0
            buffer_ := none }, r.2.2)
      else
        (some (r.2.1.take r.1.toNat),
          { a1 with
            buffer_ := some (r.2.1.take r.1.toNat ++
              (a1.buffer_.getD []).drop r.1.toNat)
            buffer_used_ := r.1
            position_ := a1.position_ + r.1 }, r.2.2)

/-- `CopyingInputStreamAdaptor::BackUp` (impl lines 80-93): after the
diagnostics (which only print), unconditionally `backup_bytes_ = count`. -/
def BackUp (a : CopyingInputStreamAdaptor) (count : Int) :
    CopyingInputStreamAdaptor :=
  { a with backup_bytes_ := count }

/-- `CopyingInputStreamAdaptor::Skip` (impl lines 95-119). -/
def Skip {σ : Type} (src : CopyingInputStream σ)
    (a : CopyingInputStreamAdaptor) (s : σ) (count : Int) :
    Bool × CopyingInputStreamAdaptor × σ :=
  if a.failed_ then (false, a, s)
  else if count ≤ a.backup_bytes_ then
    (true, { a with backup_bytes_ := a.backup_bytes_ - count }, s)
  else
    let c := count - a.backup_bytes_
    let r := src.skip s c
    (decide (r.1 = c),
      { a with backup_bytes_ := 0, position_ := a.position_ + r.1 }, r.2)

/-- `CopyingInputStreamAdaptor::ByteCount` (impl lines 121-123). -/
def ByteCount (a : CopyingInputStreamAdaptor) : Int :=
  a.position_ - a.backup_bytes_

/-- Well-formedness of an adaptor state, from the invariants documented in
the header (lines 92, 97): `0 ≤ backup_bytes_ ≤ buffer_used_` and the used
range fits inside the allocated buffer (a NULL buffer has length 0, which
forces `buffer_used_ = 0`). -/
def wf (a : CopyingInputStreamAdaptor) : Prop :=
  0 ≤ a.backup_bytes_ ∧ a.backup_bytes_ ≤ a.buffer_used_ ∧
    a.buffer_used_.toNat ≤ (a.buffer_.getD []).length

instance (a : CopyingInputStreamAdaptor) : Decidable a.wf := by
  unfold wf; infer_instance

end CopyingInputStreamAdaptor

/-- File-like test source: a list of bytes with a cursor; `read` delivers
`min size remaining` bytes and counts every call in `reads`. -/
structure ListSource where
  data : List UInt8
  pos : Nat
  reads : Nat
deriving DecidableEq

/-- One `Read` call on a `ListSource`: deliver up to `size` bytes from the
cursor (0 at end of data = EOF), advance the cursor, count the call. -/
def ListSource.read (s : ListSource) (size : Int) :
    Int × List UInt8 × ListSource :=
  let n := min size.toNat (s.data.length - s.pos)
  ((n : Int), (s.data.drop s.pos).take n,
    { s with pos := s.pos + n, reads := s.reads + 1 })

/-- The `CopyingInputStream` over a `ListSource`; its `Skip` is the default
read-based implementation. -/
def listStream : CopyingInputStream ListSource :=
  { read := ListSource.read
    skip := fun s c => CopyingInputStream.defaultSkip ListSource.read s c }

example :
    (CopyingInputStreamAdaptor.Next listStream
      (CopyingInputStreamAdaptor.make 4)
      ⟨[65, 66, 67, 68, 69, 70, 71, 72], 0, 0⟩).1 =
      some [65, 66, 67, 68] := by decide

/-- Abstract `CopyingOutputStream` interface over a sink-state type `σ`:
`write s bytes` models `Write(buffer, size)` on the first `size` bytes of
the buffer and yields the `bool` result plus the successor sink state. -/
structure CopyingOutputStream (σ : Type) where
  write : σ → List UInt8 → Bool × σ

/-- State of `CopyingOutputStreamAdaptor` (header lines 131-186). -/
structure CopyingOutputStreamAdaptor where
  failed_ : Bool
  position_ : Int
  buffer_ : Option (List UInt8)
  buffer_size_ : Int
  buffer_used_ : Int
deriving DecidableEq

namespace CopyingOutputStreamAdaptor

/-- Constructor (impl lines 142-149).  The C++ initializer tests
`block_size_ > 0`, but the class declares no member of that name (header
lines 163-182), so the only referent is the `block_size` parameter; the
initializer is modelled as `block_size > 0 ? block_size : kDefaultBlockSize`,
mirroring the input adaptor's (impl line 36). -/
def make (block_size : Int) : CopyingOutputStreamAdaptor :=
  { failed_ := false
    position_ := 0
    buffer_ := none
    buffer_size_ := if block_size > 0 then block_size else kDefaultBlockSize
    buffer_used_ := 0 }

/-- `AllocateBufferIfNeeded` (impl lines 213-217). -/
def AllocateBufferIfNeeded (a : CopyingOutputStreamAdaptor) :
    CopyingOutputStreamAdaptor :=
  match a.buffer_ with
  | some _ => a
  | none => { a with buffer_ := some (List.replicate a.buffer_size_.toNat 0) }

/-- `FreeBuffer` (impl lines 219-222). -/
def FreeBuffer (a : CopyingOutputStreamAdaptor) : CopyingOutputStreamAdaptor :=
  { a with buffer_used_ := 0, buffer_ := none }

/-- `CopyingOutputStreamAdaptor::WriteBuffer` (impl lines 194-211): nothing
on a latched failure; trivial success on an empty buffer; otherwise one
sink `Write` of the first `buffer_used_` bytes, committing them on success
and latching `failed_` plus freeing the buffer on failure. -/
def WriteBuffer {σ : Type} (snk : CopyingOutputStream σ)
    (a : CopyingOutputStreamAdaptor) (s : σ) :
    Bool × CopyingOutputStreamAdaptor × σ :=
  if a.failed_ then (false, a, s)
  else if a.buffer_used_ = 0 then (true, a, s)
  else
    let r := snk.write s ((a.buffer_.getD []).take a.buffer_used_.toNat)
    if r.1 then
      (true,
        { a with position_ := a.position_ + a.buffer_used_, buffer_used_ := 0 },
        r.2)
    else
      (false, { a with failed_ := true, buffer_used_ := 0, buffer_ := none },
        r.2)

/-- `CopyingOutputStreamAdaptor::Flush` (impl lines 158-160). -/
def Flush {σ : Type} (snk : CopyingOutputStream σ)
    (a : CopyingOutputStreamAdaptor) (s : σ) :
    Bool × CopyingOutputStreamAdaptor × σ :=
  WriteBuffer snk a s

/-- `CopyingOutputStreamAdaptor::Next` (impl lines 162-173): flush first
when the buffer is full (propagating failure), then hand out the unused
remainder of the buffer — `some size` is the `*size` written through the
out-parameter — and mark the whole buffer used. -/
def Next {σ : Type} (snk : CopyingOutputStream σ)
    (a : CopyingOutputStreamAdaptor) (s : σ) :
    Option Int × CopyingOutputStreamAdaptor × σ :=
  if a.buffer_used_ = a.buffer_size_ then
    match WriteBuffer snk a s with
    | (false, a', s') => (none, a', s')
    | (true, a', s') =>
      let a1 := a'.AllocateBufferIfNeeded
      (some (a1.buffer_size_ - a1.buffer_used_),
        { a1 with buffer_used_ := a1.buffer_size_ }, s')
  else
    let a1 := a.AllocateBufferIfNeeded
    (some (a1.buffer_size_ - a1.buffer_used_),
      { a1 with buffer_used_ := a1.buffer_size_ }, s)

/-- `CopyingOutputStreamAdaptor::BackUp` (impl lines 175-188): the
diagnostics only print; then `buffer_used_ -= count`. -/
def BackUp (a : CopyingOutputStreamAdaptor) (count : Int) :
    CopyingOutputStreamAdaptor :=
  { a with buffer_used_ := a.buffer_used_ - count }

/-- `CopyingOutputStreamAdaptor::ByteCount` (impl lines 190-192). -/
def ByteCount (a : CopyingOutputStreamAdaptor) : Int :=
  a.position_ + a.buffer_used_

end CopyingOutputStreamAdaptor

/-- Test sink whose `Write` always fails; the state counts the calls. -/
def failSink : CopyingOutputStream Nat :=
  { write := fun n _ => (false, n + 1) }

/-- Test sink whose `Write` always succeeds, accumulating the bytes written;
the `Nat` component counts the calls. -/
def listSink : CopyingOutputStream (List UInt8 × Nat) :=
  { write := fun s bytes => (true, s.1 ++ bytes, s.2 + 1) }

/-- The `errno` value `EINTR` (interrupted system call). -/
def EINTR : Int := 4

/-- Run a `do { result = oscall(...); } while (result < 0 && errno == EINTR)`
retry loop against a script of `(result, errno)` outcomes, one per OS call
attempt.  Returns the final result and errno, the unconsumed script, and
the number of attempts made; an exhausted script reads as `(0, 0)`. -/
def runEintr : List (Int × Int) → Int × Int × List (Int × Int) × Nat
  | [] => (0, 0, [], 1)
  | (r, e) :: rest =>
    if r < 0 ∧ e = EINTR then
      match runEintr rest with
      | (r', e', rest', n) => (r', e', rest', n + 1)
    else (r, e, rest, 1)

/-- OS-level state of a readable file descriptor.  `rscript` holds scripted
outcomes for successive OS `read` attempts (empty script = behave as a plain
file over `data`); `seekOk` holds scripted outcomes for successive `lseek`
attempts (empty script = seeks succeed); `rcalls`, `lseeks` and `ccalls`
count the OS `read`, `lseek` and `close` calls issued; `cscript` scripts
`close` outcomes. -/
structure OsIn where
  rscript : List (Int × Int)
  data : List UInt8
  pos : Nat
  rcalls : Nat
  seekOk : List Bool
  lseeks : Nat
  cscript : List (Int × Int)
  ccalls : Nat
deriving DecidableEq

/-- One `read(fd, buffer, size)` including the EINTR retry loop of
`CopyingFileInputStream::Read` (impl lines 287-289): with no script, deliver
up to `size` bytes from the cursor (0 at end = EOF); with a script, retry
through EINTR entries and on a positive result deliver that many bytes
(clamped to the request and the data remaining). -/
def OsIn.osRead (os : OsIn) (size : Int) : Int × Int × List UInt8 × OsIn :=
  match os.rscript with
  | [] =>
    let m := min size.toNat (os.data.length - os.pos)
    ((m : Int), 0, (os.data.drop os.pos).take m,
      { os with pos := os.pos + m, rcalls := os.rcalls + 1 })
  | _ :: _ =>
    match runEintr os.rscript with
    | (r, e, rest, n) =>
      let os1 := { os with rscript := rest, rcalls := os.rcalls + n }
      if 0 < r then
        let m := min r.toNat (min size.toNat (os.data.length - os.pos))
        ((m : Int), e, (os.data.drop os.pos).take m,
          { os1 with pos := os.pos + m })
      else (r, e, [], os1)

/-- One `lseek(fd, count, SEEK_CUR)` attempt: consume the next scripted
outcome (an empty script means the descriptor is seekable) and count the
call. -/
def OsIn.lseekCur (os : OsIn) : Bool × OsIn :=
  match os.seekOk with
  | [] => (true, { os with lseeks := os.lseeks + 1 })
  | b :: rest => (b, { os with seekOk := rest, lseeks := os.lseeks + 1 })

/-- Modelled from the spec: `close_no_eintr` (declared in `common.h`, whose
definition is not in the repository) "loops OS `close` tolerating
interrupt"; returns the final result and errno, consuming close-script
entries and counting the attempts. -/
def OsIn.closeNoEintr (os : OsIn) : Int × Int × OsIn :=
  match os.cscript with
  | [] => (0, 0, { os with ccalls := os.ccalls + 1 })
  | _ :: _ =>
    match runEintr os.cscript with
    | (r, e, rest, n) =>
      (r, e, { os with cscript := rest, ccalls := os.ccalls + n })

/-- State of `FileInputStream::CopyingFileInputStream`
(header lines 224-254). -/
structure CopyingFileInputStream where
  file_ : Int
  close_on_delete_ : Bool
  is_closed_ : Bool
  errno_ : Int
  previous_seek_failed_ : Bool
deriving DecidableEq

/-- Constructor (impl lines 252-258). -/
def CopyingFileInputStream.make (file_descriptor : Int) :
    CopyingFileInputStream :=
  { file_ := file_descriptor
    close_on_delete_ := false
    is_closed_ := false
    errno_ := 0
    previous_seek_failed_ := false }

/-- `CopyingFileInputStream` `Close` (impl lines 268-281).  The guard at
line 269 reads `if (is_closed_);` — the semicolon makes it an empty
statement, so the method proceeds unconditionally: it marks the stream
closed, always issues another OS close, and records `errno_` on failure. -/
def CopyingFileInputStream.Close (st : CopyingFileInputStream) (os : OsIn) :
    Bool × CopyingFileInputStream × OsIn :=
  let st1 := { st with is_closed_ := true }
  match os.closeNoEintr with
  | (r, e, os') =>
    if r ≠ 0 then (false, { st1 with errno_ := e }, os')
    else (true, st1, os')

/-- `CopyingFileInputStream` `Read` (impl lines 283-297), as a read
function over the combined state `CopyingFileInputStream × OsIn`.  The
guard at line 284 reads `if (is_closed_);` — an empty statement, so the OS
read is attempted even on a closed stream; the EINTR retry loop lives in
`OsIn.osRead`, and a negative result records `errno_`. -/
def cfisRead (p : CopyingFileInputStream × OsIn) (size : Int) :
    Int × List UInt8 × (CopyingFileInputStream × OsIn) :=
  match p.2.osRead size with
  | (r, e, bytes, os') =>
    (r, bytes, (if r < 0 then { p.1 with errno_ := e } else p.1, os'))

/-- `CopyingFileInputStream::Skip` (impl lines 299-314): unless a previous
seek failed, try `lseek` and on success return `count`; otherwise (the
`&&` short-circuits, so a latched failure never reaches `lseek`) set
`previous_seek_failed_` and fall back to the default read-based
`CopyingInputStream::Skip`. -/
def CopyingFileInputStream.Skip (st : CopyingFileInputStream) (os : OsIn)
    (count : Int) : Int × CopyingFileInputStream × OsIn :=
  if st.previous_seek_failed_ then
    match CopyingInputStream.defaultSkip cfisRead
        ({ st with previous_seek_failed_ := true }, os) count with
    | (k, p) => (k, p.1, p.2)
  else
    match os.lseekCur with
    | (true, os') => (count, st, os')
    | (false, os') =>
      match CopyingInputStream.defaultSkip cfisRead
          ({ st with previous_seek_failed_ := true }, os') count with
      | (k, p) => (k, p.1, p.2)

/-- OS-level state of a writable file descriptor.  `wscript` holds scripted
`(result, errno)` outcomes for successive OS `write` attempts (an exhausted
script reports zero progress); `written` accumulates the bytes the OS
confirmed; `wcalls`/`ccalls` count the OS `write`/`close` calls;
`cscript` scripts `close` outcomes. -/
structure OsFile where
  wscript : List (Int × Int)
  written : List UInt8
  wcalls : Nat
  cscript : List (Int × Int)
  ccalls : Nat
deriving DecidableEq

/-- One `write(fd, chunk, chunk.length)` including the EINTR retry loop of
`CopyingFileOutputStream::Write` (impl lines 391-393): retry through EINTR
entries; a positive result confirms that many bytes of the chunk (clamped
to its length, as the OS never writes more than requested). -/
def OsFile.osWrite (os : OsFile) (chunk : List UInt8) :
    Int × Int × OsFile :=
  match os.wscript with
  | [] => (0, 0, { os with wcalls := os.wcalls + 1 })
  | _ :: _ =>
    match runEintr os.wscript with
    | (r, e, rest, n) =>
      let os1 := { os with wscript := rest, wcalls := os.wcalls + n }
      if 0 < r then
        let m := min r.toNat chunk.length
        ((m : Int), e, { os1 with written := os1.written ++ chunk.take m })
      else (r, e, os1)

/-- Modelled from the spec: `close_no_eintr` for the output descriptor
(`common.h` is not in the repository) — loops OS `close` tolerating
interrupt. -/
def OsFile.closeNoEintr (os : OsFile) : Int × Int × OsFile :=
  match os.cscript with
  | [] => (0, 0, { os with ccalls := os.ccalls + 1 })
  | _ :: _ =>
    match runEintr os.cscript with
    | (r, e, rest, n) =>
      (r, e, { os with cscript := rest, ccalls := os.ccalls + n })

/-- State of `FileOutputStream::CopyingFileOutputStream`
(header lines 309-334). -/
structure CopyingFileOutputStream where
  file_ : Int
  close_on_delete_ : Bool
  is_closed_ : Bool
  errno_ : Int
deriving DecidableEq

/-- Constructor (impl lines 346-351). -/
def CopyingFileOutputStream.make (file_descriptor : Int) :
    CopyingFileOutputStream :=
  { file_ := file_descriptor
    close_on_delete_ := false
    is_closed_ := false
    errno_ := 0 }

/-- `CopyingFileOutputStream::Close` (impl lines 361-377): a second call is
rejected up front (prints "file already closed", returns false, no OS
call); otherwise mark closed, issue the OS close, and on failure record the
error code (the source assigns `error_ = errno` at line 372 — the class
declares no `error_` member, an evident slip for `errno_`, modelled as
recording `errno_`). -/
def CopyingFileOutputStream.Close (st : CopyingFileOutputStream)
    (os : OsFile) : Bool × CopyingFileOutputStream × OsFile :=
  if st.is_closed_ then (false, st, os)
  else
    let st1 := { st with is_closed_ := true }
    match os.closeNoEintr with
    | (r, e, os') =>
      if r ≠ 0 then (false, { st1 with errno_ := e }, os')
      else (true, st1, os')

/-- Outer loop of `CopyingFileOutputStream::Write` (impl lines 389-404):
while `total < size`, issue one (EINTR-retried) OS write of the remaining
`buffer + total` region; on a non-positive result record `errno_` when
negative and fail; otherwise advance `total` by the bytes delivered. -/
def writeLoopAux (st : CopyingFileOutputStream) (os : OsFile)
    (buf : List UInt8) (size total : Int) :
    Bool × CopyingFileOutputStream × OsFile :=
  if h : total < size then
    match os.osWrite ((buf.drop total.toNat).take (size - total).toNat) with
    | (r, e, os') =>
      if h2 : r ≤ 0 then
        (false, if r < 0 then { st with errno_ := e } else st, os')
      else
        writeLoopAux st os' buf size (total + r)
  else (true, st, os)
termination_by (size - total).toNat
decreasing_by omega

/-- `CopyingFileOutputStream::Write` (impl lines 379-407): rejected on a
closed stream (prints and returns false), else the resuming write loop
starting at `total_written = 0`. -/
def CopyingFileOutputStream.Write (st : CopyingFileOutputStream)
    (os : OsFile) (buf : List UInt8) (size : Int) :
    Bool × CopyingFileOutputStream × OsFile :=
  if st.is_closed_ then (false, st, os)
  else writeLoopAux st os buf size 0

/-- A sequence of `CopyingFileInputStream::Skip` calls, threaded through the
stream and OS states. -/
def runSkips : List Int → CopyingFileInputStream × OsIn →
    CopyingFileInputStream × OsIn
  | [], p => p
  | c :: cs, (st, os) =>
    match st.Skip os c with
    | (_, st', os') => runSkips cs (st', os')

/-- Validity of a read function: the bytes deposited in the caller's buffer
are exactly as many as the returned count reports. -/
def ReadOk {σ : Type} (src : CopyingInputStream σ) : Prop :=
  ∀ (s : σ) (n : Int), ((src.read s n).2.1).length = (src.read s n).1.toNat

/-- The spec scenario's source bytes, `"ABCDEFGH"`. -/
def abcdefgh : List UInt8 := [65, 66, 67, 68, 69, 70, 71, 72]

/-- Scenario step 1: first `Next` with block size 4 over `"ABCDEFGH"`. -/
def scenStep1 :
    Option (List UInt8) × CopyingInputStreamAdaptor × ListSource :=
  CopyingInputStreamAdaptor.Next listStream
    (CopyingInputStreamAdaptor.make 4) ⟨abcdefgh, 0, 0⟩

/-- Scenario step 2: `BackUp(2)` then `Next`. -/
def scenStep2 :
    Option (List UInt8) × CopyingInputStreamAdaptor × ListSource :=
  CopyingInputStreamAdaptor.Next listStream (scenStep1.2.1.BackUp 2)
    scenStep1.2.2

/-- Scenario step 3: third `Next`. -/
def scenStep3 :
    Option (List UInt8) × CopyingInputStreamAdaptor × ListSource :=
  CopyingInputStreamAdaptor.Next listStream scenStep2.2.1 scenStep2.2.2

/-- Scenario step 4: fourth `Next` (expected EOF). -/
def scenStep4 :
    Option (List UInt8) × CopyingInputStreamAdaptor × ListSource :=
  CopyingInputStreamAdaptor.Next listStream scenStep3.2.1 scenStep3.2.2

/-- Output adaptor state after one `Next` on a fresh block-size-4 adaptor
over the always-failing sink (the full 4-byte buffer is handed out). -/
def outA1 : CopyingOutputStreamAdaptor :=
  (CopyingOutputStreamAdaptor.Next failSink
    (CopyingOutputStreamAdaptor.make 4) 0).2.1

/-- Flushing `outA1` against the always-failing sink. -/
def outFlushFail : Bool × CopyingOutputStreamAdaptor × Nat :=
  CopyingOutputStreamAdaptor.Flush failSink outA1 0

/-- Source holding just `"AB"`, for driving the input adaptor to EOF. -/
def c3s0 : ListSource := ⟨[65, 66], 0, 0⟩

/-- EOF run, step 1: `Next` returns the two available bytes. -/
def c3n1 : Option (List UInt8) × CopyingInputStreamAdaptor × ListSource :=
  CopyingInputStreamAdaptor.Next listStream
    (CopyingInputStreamAdaptor.make 4) c3s0

/-- EOF run, step 2: `Next` hits EOF. -/
def c3n2 : Option (List UInt8) × CopyingInputStreamAdaptor × ListSource :=
  CopyingInputStreamAdaptor.Next listStream c3n1.2.1 c3n1.2.2

/-- EOF run, step 3: `Next` after EOF was already reported. -/
def c3n3 : Option (List UInt8) × CopyingInputStreamAdaptor × ListSource :=
  CopyingInputStreamAdaptor.Next listStream c3n2.2.1 c3n2.2.2

/-- A plain closable input descriptor with all OS call counters at zero. -/
def c9os : OsIn := ⟨[], [], 0, 0, [], 0, [], 0⟩

/-- First `Close` on a fresh file-backed input source. -/
def c9c1 : Bool × CopyingFileInputStream × OsIn :=
  CopyingFileInputStream.Close (CopyingFileInputStream.make 3) c9os

/-- Second `Close` on the same source. -/
def c9c2 : Bool × CopyingFileInputStream × OsIn :=
  CopyingFileInputStream.Close c9c1.2.1 c9c1.2.2

/-! Helper lemmas. -/

theorem alloc_failed (a : CopyingInputStreamAdaptor) :
    a.AllocateBufferIfNeeded.failed_ = a.failed_ := by
  cases h : a.buffer_ <;>
    simp [CopyingInputStreamAdaptor.AllocateBufferIfNeeded, h]

theorem alloc_backup (a : CopyingInputStreamAdaptor) :
    a.AllocateBufferIfNeeded.backup_bytes_ = a.backup_bytes_ := by
  cases h : a.buffer_ <;>
    simp [CopyingInputStreamAdaptor.AllocateBufferIfNeeded, h]

theorem alloc_of_some (a : CopyingInputStreamAdaptor) (b : List UInt8)
    (h : a.buffer_ = some b) : a.AllocateBufferIfNeeded = a := by
  simp [CopyingInputStreamAdaptor.AllocateBufferIfNeeded, h]

/-! ## C10 — constructor block-size normalization -/

/-- C10: for every integer `block_size` passed to the input or output
adaptor constructor, `buffer_size_` — and hence the capacity of the lazily
allocated buffer — equals `block_size` when `block_size > 0` and the
default 8192 for every `block_size ≤ 0`, not only for the documented
`-1`. -/
theorem block_size_normalization (bs : Int) :
    (CopyingInputStreamAdaptor.make bs).buffer_size_ =
      (if bs > 0 then bs else 8192) ∧
    (CopyingOutputStreamAdaptor.make bs).buffer_size_ =
      (if bs > 0 then bs else 8192) ∧
    (CopyingInputStreamAdaptor.make bs).AllocateBufferIfNeeded.buffer_ =
      some (List.replicate (if bs > 0 then bs.toNat else 8192) 0) ∧
    (CopyingOutputStreamAdaptor.make bs).AllocateBufferIfNeeded.buffer_ =
      some (List.replicate (if bs > 0 then bs.toNat else 8192) 0) := by
  refine ⟨rfl, rfl, ?_, ?_⟩ <;>
    simp only [CopyingInputStreamAdaptor.make,
      CopyingOutputStreamAdaptor.make,
      CopyingInputStreamAdaptor.AllocateBufferIfNeeded,
      CopyingOutputStreamAdaptor.AllocateBufferIfNeeded,
      kDefaultBlockSize] <;>
    split_ifs <;> rfl

/-! ## C6 — input-adaptor skip semantics -/

/-- C6: for every `count ≥ 0` on a non-failed input adaptor, `Skip(count)`
first consumes backed-up bytes with no source I/O: when
`backup_bytes_ ≥ count` it just decrements `backup_bytes_` and succeeds
with `position_` and the source untouched; otherwise it zeroes
`backup_bytes_`, delegates the remainder `count - backup_bytes_` to the
source's `Skip`, adds the amount actually skipped to `position_`, and
succeeds iff the source skipped exactly that remainder. -/
theorem skip_semantics {σ : Type} (src : CopyingInputStream σ)
    (a : CopyingInputStreamAdaptor) (s : σ) (count : Int)
    (hc : 0 ≤ count) (hf : a.failed_ = false) :
    (count ≤ a.backup_bytes_ →
      CopyingInputStreamAdaptor.Skip src a s count =
        (true, { a with backup_bytes_ := a.backup_bytes_ - count }, s)) ∧
    (a.backup_bytes_ < count →
      CopyingInputStreamAdaptor.Skip src a s count =
        (decide ((src.skip s (count - a.backup_bytes_)).1 =
            count - a.backup_bytes_),
          { a with
            backup_bytes_ := 0
            position_ := a.position_ +
              (src.skip s (count - a.backup_bytes_)).1 },
          (src.skip s (count - a.backup_bytes_)).2)) := by
  constructor
  · intro h
    simp [CopyingInputStreamAdaptor.Skip, hf, h]
  · intro h
    have h' : ¬ count ≤ a.backup_bytes_ := by omega
    simp [CopyingInputStreamAdaptor.Skip, hf, h']

/-- Witness for `skip_semantics` at a concrete adaptor, source and count:
with 3 backed-up bytes, `Skip 2` consumes from the backup without touching
the source. -/
theorem skip_semantics_witness :
    CopyingInputStreamAdaptor.Skip listStream
      ⟨false, 5, some [1, 2, 3, 4], 4, 4, 3⟩ ⟨[9, 9], 0, 0⟩ 2 =
      (true, ⟨false, 5, some [1, 2, 3, 4], 4, 4, 1⟩, ⟨[9, 9], 0, 0⟩) := by
  have h := (skip_semantics listStream
    ⟨false, 5, some [1, 2, 3, 4], 4, 4, 3⟩ ⟨[9, 9], 0, 0⟩ 2
    (by decide) (by decide)).1 (by decide)
  simpa using h

/-! ## C2 — failure latching -/

/-- C2 counterexample: after a `Flush` against a failing sink has latched
`failed_` on a `CopyingOutputStreamAdaptor`, a later `Next` does NOT report
failure — it hands out a fresh 4-byte buffer — so "every subsequent
operation fails immediately" is false as stated.  (`outFlushFail` records
the failed flush; the sink counter 1 shows `Write` was invoked once.) -/
theorem failure_latching_cex :
    outFlushFail.1 = false ∧ outFlushFail.2.1.failed_ = true ∧
    outFlushFail.2.2 = 1 ∧
    (CopyingOutputStreamAdaptor.Next failSink outFlushFail.2.1 1).1 =
      some 4 := by
  decide

/-- C2 amended: once `failed_` is set, `Next` and `Skip` on the input
adaptor and `Flush` on the output adaptor fail immediately with the
source/sink untouched, and so does an output `Next` that has to flush a
full buffer; but an output `Next` with free buffer space still succeeds
(returning the unused remainder) without invoking the sink. -/
theorem failure_latching_amended {σ τ : Type} (src : CopyingInputStream σ)
    (snk : CopyingOutputStream τ) (ai : CopyingInputStreamAdaptor)
    (ao : CopyingOutputStreamAdaptor) (s : σ) (t : τ) (count : Int)
    (hi : ai.failed_ = true) (ho : ao.failed_ = true) :
    CopyingInputStreamAdaptor.Next src ai s = (none, ai, s) ∧
    CopyingInputStreamAdaptor.Skip src ai s count = (false, ai, s) ∧
    CopyingOutputStreamAdaptor.Flush snk ao t = (false, ao, t) ∧
    (ao.buffer_used_ = ao.buffer_size_ →
      CopyingOutputStreamAdaptor.Next snk ao t = (none, ao, t)) ∧
    (ao.buffer_used_ ≠ ao.buffer_size_ →
      (CopyingOutputStreamAdaptor.Next snk ao t).1 =
        some (ao.buffer_size_ - ao.buffer_used_) ∧
      (CopyingOutputStreamAdaptor.Next snk ao t).2.2 = t) := by
  refine ⟨?_, ?_, ?_, ?_, ?_⟩
  · simp [CopyingInputStreamAdaptor.Next, hi]
  · simp [CopyingInputStreamAdaptor.Skip, hi]
  · simp [CopyingOutputStreamAdaptor.Flush,
      CopyingOutputStreamAdaptor.WriteBuffer, ho]
  · intro h
    simp [CopyingOutputStreamAdaptor.Next, h,
      CopyingOutputStreamAdaptor.WriteBuffer, ho]
  · intro h
    cases hb : ao.buffer_ <;>
      constructor <;>
        simp [CopyingOutputStreamAdaptor.Next, if_neg h,
          CopyingOutputStreamAdaptor.AllocateBufferIfNeeded, hb]

/-- Witness for `failure_latching_amended` at concrete failed adaptors:
both adaptor states carry `failed_ = true`; the input `Next`/`Skip` and
output `Flush` fail with the source and sink untouched, the full-buffer
output `Next` fails, and the free-space clause holds vacuously-concretely
with a 2-of-4-used adaptor via the last conjunct. -/
theorem failure_latching_amended_witness :
    CopyingInputStreamAdaptor.Next listStream
      ⟨true, 7, none, 4, 0, 0⟩ ⟨[1, 2], 0, 0⟩ =
      (none, ⟨true, 7, none, 4, 0, 0⟩, ⟨[1, 2], 0, 0⟩) ∧
    CopyingInputStreamAdaptor.Skip listStream
      ⟨true, 7, none, 4, 0, 0⟩ ⟨[1, 2], 0, 0⟩ 3 =
      (false, ⟨true, 7, none, 4, 0, 0⟩, ⟨[1, 2], 0, 0⟩) ∧
    CopyingOutputStreamAdaptor.Flush failSink ⟨true, 7, none, 4, 2⟩ 0 =
      (false, ⟨true, 7, none, 4, 2⟩, 0) ∧
    (CopyingOutputStreamAdaptor.Next failSink ⟨true, 7, none, 4, 2⟩ 0).1 =
      some 2 ∧
    (CopyingOutputStreamAdaptor.Next failSink ⟨true, 7, none, 4, 2⟩ 0).2.2 =
      0 := by
  have h := failure_latching_amended listStream failSink
    ⟨true, 7, none, 4, 0, 0⟩ ⟨true, 7, none, 4, 2⟩
    ⟨[1, 2], 0, 0⟩ 0 3 rfl rfl
  exact ⟨h.1, h.2.1, h.2.2.1, (h.2.2.2.2 (by decide)).1,
    (h.2.2.2.2 (by decide)).2⟩

/-! ## C4 — flush-failure atomicity -/

/-- C4 counterexample: with 2 buffered bytes (`ByteCount = 2`), a `Flush`
whose sink `Write` fails returns failure, but `ByteCount` afterwards is 0,
not its pre-flush value 2 — the buffered bytes are discarded, so
"ByteCount() afterwards equals its value before the failed Flush" is false
as stated. -/
theorem flush_failure_cex :
    (outA1.BackUp 2).ByteCount = 2 ∧
    (CopyingOutputStreamAdaptor.Flush failSink (outA1.BackUp 2) 0).1 =
      false ∧
    (CopyingOutputStreamAdaptor.Flush failSink
      (outA1.BackUp 2) 0).2.1.ByteCount = 0 := by
  decide

/-- C4 amended: for every state with buffered bytes whose sink `Write`
fails on the first call, `Flush` returns failure and latches `failed_`;
`ByteCount` afterwards equals the pre-flush `position_`, i.e. it has
dropped by the `buffer_used_` buffered bytes that were discarded; and a
second `Flush` also fails without invoking the sink's `Write` again (the
sink state is untouched). -/
theorem flush_failure_amended {σ : Type} (snk : CopyingOutputStream σ)
    (a : CopyingOutputStreamAdaptor) (s : σ)
    (hf : a.failed_ = false) (hu : a.buffer_used_ ≠ 0)
    (hw : (snk.write s ((a.buffer_.getD []).take a.buffer_used_.toNat)).1 =
      false) :
    (CopyingOutputStreamAdaptor.Flush snk a s).1 = false ∧
    (CopyingOutputStreamAdaptor.Flush snk a s).2.1.failed_ = true ∧
    (CopyingOutputStreamAdaptor.Flush snk a s).2.1.ByteCount =
      a.position_ ∧
    (CopyingOutputStreamAdaptor.Flush snk a s).2.1.ByteCount =
      a.ByteCount - a.buffer_used_ ∧
    (∀ s' : σ, CopyingOutputStreamAdaptor.Flush snk
        (CopyingOutputStreamAdaptor.Flush snk a s).2.1 s' =
      (false, (CopyingOutputStreamAdaptor.Flush snk a s).2.1, s')) := by
  have h1 : CopyingOutputStreamAdaptor.Flush snk a s =
      (false, { a with failed_ := true, buffer_used_ := 0, buffer_ := none },
        (snk.write s ((a.buffer_.getD []).take a.buffer_used_.toNat)).2) := by
    simp [CopyingOutputStreamAdaptor.Flush,
      CopyingOutputStreamAdaptor.WriteBuffer, hf, hu, hw]
  refine ⟨?_, ?_, ?_, ?_, ?_⟩
  · rw [h1]
  · rw [h1]
  · rw [h1]; simp [CopyingOutputStreamAdaptor.ByteCount]
  · rw [h1]; simp [CopyingOutputStreamAdaptor.ByteCount]
  · intro s'
    rw [h1]
    simp [CopyingOutputStreamAdaptor.Flush,
      CopyingOutputStreamAdaptor.WriteBuffer]

/-- Witness for `flush_failure_amended` at the concrete 2-of-4-used adaptor
over the always-failing sink. -/
theorem flush_failure_amended_witness :
    (CopyingOutputStreamAdaptor.Flush failSink (outA1.BackUp 2) 0).1 =
      false ∧
    (CopyingOutputStreamAdaptor.Flush failSink
      (outA1.BackUp 2) 0).2.1.ByteCount = 0 ∧
    CopyingOutputStreamAdaptor.Flush failSink
        (CopyingOutputStreamAdaptor.Flush failSink
          (outA1.BackUp 2) 0).2.1 99 =
      (false,
        (CopyingOutputStreamAdaptor.Flush failSink (outA1.BackUp 2) 0).2.1,
        99) := by
  have h := flush_failure_amended failSink (outA1.BackUp 2) 0
    (by decide) (by decide) (by decide)
  exact ⟨h.1, by rw [h.2.2.1]; decide, h.2.2.2.2 99⟩

/-! ## C5 — ByteCount monotonicity -/

/-- Helper: the default read-based skip never returns less than its
accumulator, so the count it reports is nonnegative. -/
theorem defaultSkipAux_ge {σ : Type}
    (read : σ → Int → Int × List UInt8 × σ) :
    ∀ (s : σ) (count skipped : Int),
      skipped ≤ (defaultSkipAux read s count skipped).1 := by
  intro s count skipped
  induction s, count, skipped using defaultSkipAux.induct read with
  | case1 s count skipped h r bytes rest heq h2 =>
    rw [defaultSkipAux, dif_pos h, heq]
    simp [h2]
  | case2 s count skipped h r bytes rest heq h2 ih =>
    rw [defaultSkipAux, dif_pos h, heq]
    simp only [dif_neg h2]
    omega
  | case3 s count skipped h =>
    rw [defaultSkipAux, dif_neg h]

/-- Helper: the `listStream` source's skip always reports a nonnegative
skipped count. -/
theorem listStream_skip_nonneg (s : ListSource) (c : Int) :
    0 ≤ (listStream.skip s c).1 := by
  have h := defaultSkipAux_ge ListSource.read s c 0
  simpa [listStream, CopyingInputStream.defaultSkip] using h

/-- C5 counterexample: on the input adaptor over `"ABCDEFGH"` with block
size 4, `ByteCount` is 4 after the first `Next` and drops to 2 after
`BackUp(2)` — the very definition `position - backedUpLength` the claim
cites makes `ByteCount` decrease, so it is not monotonically
non-decreasing. -/
theorem byteCount_monotone_cex :
    scenStep1.2.1.ByteCount = 4 ∧
    (scenStep1.2.1.BackUp 2).ByteCount = 2 := by
  decide

/-- C5 amended: the internal `position_` counter is monotonically
non-decreasing across every operation on both adaptors (for the output
adaptor, on well-formed states with `0 ≤ buffer_used_`; for the input
adaptor's `Skip`, whenever the source reports a nonnegative skipped count,
as the read-based default does) — but `ByteCount` itself can decrease: on
the input adaptor `BackUp(count)` lowers it by `count`, and on the output
adaptor `BackUp` and a failed `Flush` lower it. -/
theorem position_monotone_amended {σ τ : Type} (src : CopyingInputStream σ)
    (snk : CopyingOutputStream τ) (ai : CopyingInputStreamAdaptor)
    (ao : CopyingOutputStreamAdaptor) (s : σ) (t : τ) (count : Int)
    (hskip : ∀ (s' : σ) (c : Int), 0 ≤ (src.skip s' c).1)
    (hou : 0 ≤ ao.buffer_used_) :
    ai.position_ ≤ (CopyingInputStreamAdaptor.Next src ai s).2.1.position_ ∧
    (ai.BackUp count).position_ = ai.position_ ∧
    ai.position_ ≤
      (CopyingInputStreamAdaptor.Skip src ai s count).2.1.position_ ∧
    ao.position_ ≤ (CopyingOutputStreamAdaptor.Next snk ao t).2.1.position_ ∧
    (ao.BackUp count).position_ = ao.position_ ∧
    ao.position_ ≤
      (CopyingOutputStreamAdaptor.Flush snk ao t).2.1.position_ ∧
    (ai.BackUp count).ByteCount = ai.ByteCount - count + ai.backup_bytes_ ∧
    (ao.BackUp count).ByteCount = ao.ByteCount - count := by
  have hallocp : ∀ b : CopyingInputStreamAdaptor,
      b.AllocateBufferIfNeeded.position_ = b.position_ := by
    intro b
    cases h : b.buffer_ <;>
      simp [CopyingInputStreamAdaptor.AllocateBufferIfNeeded, h]
  have hwb : ao.position_ ≤
      (CopyingOutputStreamAdaptor.WriteBuffer snk ao t).2.1.position_ := by
    simp only [CopyingOutputStreamAdaptor.WriteBuffer]
    split_ifs <;> simp <;> omega
  refine ⟨?_, rfl, ?_, ?_, rfl, hwb, ?_, ?_⟩
  · simp only [CopyingInputStreamAdaptor.Next]
    split_ifs with h1 h2 h3 <;> simp [hallocp] <;> omega
  · simp only [CopyingInputStreamAdaptor.Skip]
    split_ifs with h1 h2 <;> simp
    have := hskip s (count - ai.backup_bytes_)
    omega
  · unfold CopyingOutputStreamAdaptor.Next
    split_ifs with h1
    · have h2 := hwb
      rcases hW : CopyingOutputStreamAdaptor.WriteBuffer snk ao t with
        ⟨ok, a', t'⟩
      rw [hW] at h2
      cases ok <;> simp
      · exact h2
      · cases hb : a'.buffer_ <;>
          simp [CopyingOutputStreamAdaptor.AllocateBufferIfNeeded, hb] <;>
          exact h2
    · cases hb : ao.buffer_ <;>
        simp [CopyingOutputStreamAdaptor.AllocateBufferIfNeeded, hb]
  · simp [CopyingInputStreamAdaptor.BackUp,
      CopyingInputStreamAdaptor.ByteCount]
    omega
  · simp [CopyingOutputStreamAdaptor.BackUp,
      CopyingOutputStreamAdaptor.ByteCount]
    omega

/-- Witness for `position_monotone_amended` over the concrete list-backed
source and failing sink, at the states reached in the scenario runs. -/
theorem position_monotone_amended_witness :
    scenStep1.2.1.position_ ≤
      (CopyingInputStreamAdaptor.Next listStream scenStep1.2.1
        scenStep1.2.2).2.1.position_ ∧
    outA1.position_ ≤
      (CopyingOutputStreamAdaptor.Flush failSink outA1 0).2.1.position_ := by
  have h := position_monotone_amended listStream failSink scenStep1.2.1
    outA1 scenStep1.2.2 0 2 listStream_skip_nonneg (by decide)
  exact ⟨h.1, h.2.2.2.2.2.1⟩

/-! ## C3 — EOF idempotence -/

/-- C3 counterexample: over the 2-byte source `"AB"` with block size 4,
the second `Next` reports EOF after one further read (`reads = 2`), and the
third `Next` again reports EOF — but issues yet another read call to the
source (`reads = 3`), so "without issuing any further read or skip call to
the underlying source" is false as stated. -/
theorem eof_idempotence_cex :
    c3n1.1 = some [65, 66] ∧ c3n2.1 = none ∧ c3n2.2.2.reads = 2 ∧
    c3n2.2.1.failed_ = false ∧ c3n3.1 = none ∧ c3n3.2.2.reads = 3 := by
  decide

/-- C3 amended: once `Next` has returned end because the file-like source
reported EOF, every subsequent `Next` re-queries the source — each call
issues exactly one more read — and, the source still being at EOF, again
returns end with `failed_` left false and the source position unchanged;
likewise `Skip` (for a count exceeding the backed-up bytes) issues one more
read via the default read-based skip and reports no progress.  EOF is thus
idempotent in its observable result, but not OS-call-free. -/
theorem eof_requery (a : CopyingInputStreamAdaptor) (s : ListSource)
    (count : Int) (hf : a.failed_ = false) (hb : a.backup_bytes_ ≤ 0)
    (he : s.data.length ≤ s.pos) (hcb : a.backup_bytes_ < count) :
    CopyingInputStreamAdaptor.Next listStream a s =
      (none, { a with buffer_used_ := 0, buffer_ := none },
        { s with reads := s.reads + 1 }) ∧
    CopyingInputStreamAdaptor.Skip listStream a s count =
      (false, { a with backup_bytes_ := 0 },
        { s with reads := s.reads + 1 }) := by
  rcases a with ⟨f, p, buf, bs, bu, bb⟩
  rcases s with ⟨data, pos, reads⟩
  simp only at hf hb hcb
  simp only at he
  subst hf
  have hsub : data.length - pos = 0 := Nat.sub_eq_zero_of_le he
  have hread0 : ∀ (sz : Int) (rd : Nat),
      ListSource.read ⟨data, pos, rd⟩ sz = (0, [], ⟨data, pos, rd + 1⟩) := by
    intro sz rd
    simp [ListSource.read, hsub]
  have hb' : ¬ (0 : Int) < bb := by omega
  have hskip0 : ∀ (c : Int) (rd : Nat), 0 < c →
      listStream.skip ⟨data, pos, rd⟩ c = (0, ⟨data, pos, rd + 1⟩) := by
    intro c rd hc
    simp only [listStream, CopyingInputStream.defaultSkip]
    rw [defaultSkipAux, dif_pos (by omega : (0 : Int) < c), hread0]
    simp
  constructor
  · simp only [CopyingInputStreamAdaptor.Next]
    cases buf with
    | none =>
      simp only [CopyingInputStreamAdaptor.AllocateBufferIfNeeded]
      simp [listStream, hread0, hb']
    | some b =>
      simp only [CopyingInputStreamAdaptor.AllocateBufferIfNeeded]
      simp [listStream, hread0, hb']
  · have hd : decide ((0 : Int) = count - bb) = false :=
      decide_eq_false_iff_not.mpr (by omega)
    simp only [CopyingInputStreamAdaptor.Skip]
    rw [if_neg (by simp), if_neg (by omega : ¬ count ≤ bb)]
    rw [hskip0 (count - bb) reads (by omega)]
    simp [hd]

/-- Witness for `eof_requery` at the post-EOF state of the concrete run:
a fourth `Next` and a `Skip 1` each issue one more read and report
EOF/no-progress. -/
theorem eof_requery_witness :
    CopyingInputStreamAdaptor.Next listStream c3n3.2.1 c3n3.2.2 =
      (none, { c3n3.2.1 with buffer_used_ := 0, buffer_ := none },
        { c3n3.2.2 with reads := c3n3.2.2.reads + 1 }) ∧
    CopyingInputStreamAdaptor.Skip listStream c3n3.2.1 c3n3.2.2 1 =
      (false, { c3n3.2.1 with backup_bytes_ := 0 },
        { c3n3.2.2 with reads := c3n3.2.2.reads + 1 }) :=
  eof_requery c3n3.2.1 c3n3.2.2 1 (by decide) (by decide) (by decide)
    (by decide)

/-! ## C1 — replay correctness (input adaptor) -/

theorem alloc_position (a : CopyingInputStreamAdaptor) :
    a.AllocateBufferIfNeeded.position_ = a.position_ := by
  cases h : a.buffer_ <;>
    simp [CopyingInputStreamAdaptor.AllocateBufferIfNeeded, h]

theorem alloc_size (a : CopyingInputStreamAdaptor) :
    a.AllocateBufferIfNeeded.buffer_size_ = a.buffer_size_ := by
  cases h : a.buffer_ <;>
    simp [CopyingInputStreamAdaptor.AllocateBufferIfNeeded, h]

theorem alloc_used (a : CopyingInputStreamAdaptor) :
    a.AllocateBufferIfNeeded.buffer_used_ = a.buffer_used_ := by
  cases h : a.buffer_ <;>
    simp [CopyingInputStreamAdaptor.AllocateBufferIfNeeded, h]

/-- The list-backed source reports exactly as many bytes as it delivers. -/
theorem listStream_readOk : ReadOk listStream := by
  intro s n
  simp [listStream, ListSource.read, ReadOk]
  omega

/-- C1 counterexample: the claim allows `k = 0`; but after `Next` over
`"ABCDEFGH"` returned `"ABCD"`, the sequence `BackUp(0); Next` does not
return a 0-byte view without touching the source — it issues a second
source read (`reads = 2`) and returns the fresh 4-byte view `"EFGH"`. -/
theorem replay_cex :
    (CopyingInputStreamAdaptor.Next listStream (scenStep1.2.1.BackUp 0)
      scenStep1.2.2).1 = some [69, 70, 71, 72] ∧
    (CopyingInputStreamAdaptor.Next listStream (scenStep1.2.1.BackUp 0)
      scenStep1.2.2).2.2.reads = 2 := by
  decide

/-- C1 amended: whenever `Next` returns a view `v` of `n` bytes on a
well-formed adaptor over a length-honest source and `BackUp(k)` is then
called with `0 < k ≤ n` (the claim's `k = 0` case instead makes the
following `Next` read fresh data), the immediately following `Next` returns
exactly the last `k` bytes of `v`, leaves the adaptor back in the same
state, and does not touch the underlying source; and the concrete scenario
holds: block size 4 over `"ABCDEFGH"` yields `("ABCD",4)`, after
`BackUp(2)` then `("CD",2)`, `("EFGH",4)`, then end with
`ByteCount() = 8`. -/
theorem replay_correctness :
    (∀ {σ : Type} (src : CopyingInputStream σ)
        (a : CopyingInputStreamAdaptor) (s : σ) (v : List UInt8)
        (a' : CopyingInputStreamAdaptor) (s' : σ) (k : Nat),
      ReadOk src → a.wf →
      CopyingInputStreamAdaptor.Next src a s = (some v, a', s') →
      0 < k → k ≤ v.length →
      CopyingInputStreamAdaptor.Next src (a'.BackUp (k : Int)) s' =
        (some (v.drop (v.length - k)), a', s')) ∧
    (scenStep1.1 = some [65, 66, 67, 68] ∧ scenStep2.1 = some [67, 68] ∧
      scenStep3.1 = some [69, 70, 71, 72] ∧ scenStep4.1 = none ∧
      scenStep4.2.1.ByteCount = 8) := by
  constructor
  · intro σ src a s v a' s' k hro hwf hnext hk hk2
    rcases hwf with ⟨hb0, hbu, hlen⟩
    have hk' : (0 : Int) < (k : Int) := by exact_mod_cast hk
    simp only [CopyingInputStreamAdaptor.Next, alloc_backup, alloc_failed,
      alloc_size] at hnext
    by_cases hf : a.failed_ = true
    · simp [hf] at hnext
    · have hf' : a.failed_ = false := by simpa using hf
      rw [if_neg (by simp [hf'])] at hnext
      by_cases hbp : 0 < a.backup_bytes_
      · -- replay path: the view is the backed-up byte range
        rcases hbuf : a.buffer_ with _ | b
        · exfalso
          rw [hbuf] at hlen
          simp at hlen
          omega
        · rw [if_pos hbp, alloc_of_some a b hbuf] at hnext
          rw [hbuf] at hlen
          simp only [Option.getD_some] at hlen
          simp only [Prod.mk.injEq, Option.some.injEq] at hnext
          obtain ⟨hv, ha', hs'⟩ := hnext
          subst hs'
          subst ha'
          rw [hbuf] at hv
          simp only [Option.getD_some] at hv
          have hvl : v.length = a.backup_bytes_.toNat := by
            rw [← hv]
            simp only [List.length_drop, List.length_take]
            omega
          subst hv
          simp only [CopyingInputStreamAdaptor.Next,
            CopyingInputStreamAdaptor.BackUp,
            CopyingInputStreamAdaptor.AllocateBufferIfNeeded, hbuf, hf',
            Option.getD_some]
          rw [if_neg (by simp), if_pos hk']
          simp only [Prod.mk.injEq, Option.some.injEq]
          refine ⟨?_, trivial⟩
          rw [List.drop_drop]
          congr 1
          omega
      · -- read path: the view is the bytes just read
        have hbz : a.backup_bytes_ = 0 := by omega
        rw [if_neg hbp] at hnext
        rcases hR : src.read s a.buffer_size_ with ⟨rr, rb, rs⟩
        rw [hR] at hnext
        have hrb : rb.length = rr.toNat := by
          have h := hro s a.buffer_size_
          rw [hR] at h
          simpa using h
        split_ifs at hnext with hr0
        · simp at hnext
        · simp only [Prod.mk.injEq, Option.some.injEq] at hnext
          obtain ⟨hv, ha', hs'⟩ := hnext
          subst hs'
          subst ha'
          have hr1 : ¬ rr ≤ 0 := by simpa using hr0
          have hveq : rb.take rr.toNat = rb := by
            rw [← hrb]
            exact List.take_length rb
          rw [hveq] at hv
          subst hv
          have hk2' : k ≤ rr.toNat := by
            rw [hrb] at hk2
            exact hk2
          simp only [CopyingInputStreamAdaptor.Next,
            CopyingInputStreamAdaptor.BackUp,
            CopyingInputStreamAdaptor.AllocateBufferIfNeeded, hveq,
            Option.getD_some]
          rw [if_neg (by simp [hf']), if_pos hk']
          simp only [Prod.mk.injEq, Option.some.injEq]
          refine ⟨?_, ?_, trivial⟩
          · rw [List.take_left' hrb]
            congr 1
            omega
          · simp [hbz]
  · decide

/-- Witness for `replay_correctness` at the scenario's first step: after
`Next` returned `"ABCD"`, `BackUp(2); Next` replays exactly `"CD"` with
the source untouched. -/
theorem replay_correctness_witness :
    CopyingInputStreamAdaptor.Next listStream
      ((⟨false, 4, some [65, 66, 67, 68], 4, 4, 0⟩ :
          CopyingInputStreamAdaptor).BackUp ((2 : Nat) : Int))
      ⟨abcdefgh, 4, 1⟩ =
      (some [67, 68], ⟨false, 4, some [65, 66, 67, 68], 4, 4, 0⟩,
        ⟨abcdefgh, 4, 1⟩) := by
  have h := replay_correctness.1 listStream
    (CopyingInputStreamAdaptor.make 4) ⟨abcdefgh, 0, 0⟩
    [65, 66, 67, 68] ⟨false, 4, some [65, 66, 67, 68], 4, 4, 0⟩
    ⟨abcdefgh, 4, 1⟩ 2 listStream_readOk (by decide) (by decide)
    (by decide) (by decide)
  simpa using h

/-! ## C7 — file sink write is all-or-nothing -/

/-- One OS write never confirms more bytes than the chunk it was given. -/
theorem osWrite_le (os : OsFile) (chunk : List UInt8) :
    (os.osWrite chunk).1 ≤ chunk.length := by
  cases hs : os.wscript with
  | nil =>
    simp [OsFile.osWrite, hs]
  | cons p rest =>
    rcases hr : runEintr (p :: rest) with ⟨r, e, rest', n⟩
    simp only [OsFile.osWrite, hs, hr]
    split_ifs with h0
    · simp only []
      omega
    · simp only []
      omega

/-- One OS write appends exactly the first result-many bytes of its chunk
to the confirmed-written log. -/
theorem osWrite_written (os : OsFile) (chunk : List UInt8) :
    (os.osWrite chunk).2.2.written =
      os.written ++ chunk.take (os.osWrite chunk).1.toNat := by
  cases hs : os.wscript with
  | nil =>
    simp [OsFile.osWrite, hs]
  | cons p rest =>
    rcases hr : runEintr (p :: rest) with ⟨r, e, rest', n⟩
    simp only [OsFile.osWrite, hs, hr]
    split_ifs with h0
    · simp
      omega
    · simp only []
      rw [Int.toNat_of_nonpos (by omega), List.take_zero, List.append_nil]

/-- Invariant of the `Write` loop: it reports success exactly when the OS
confirmed all remaining bytes, and whatever it wrote is a contiguous
region of `buf` starting at offset `total` — partial writes resume from
the offset rather than failing. -/
theorem writeLoopAux_spec (st : CopyingFileOutputStream) :
    ∀ (os : OsFile) (buf : List UInt8) (size total : Int),
      0 ≤ total → total ≤ size → size ≤ buf.length →
      (((writeLoopAux st os buf size total).1 = true) ↔
        (writeLoopAux st os buf size total).2.2.written.length =
          os.written.length + (size - total).toNat) ∧
      (∃ m : Nat, m ≤ (size - total).toNat ∧
        (writeLoopAux st os buf size total).2.2.written =
          os.written ++ (buf.drop total.toNat).take m) := by
  intro os buf size total
  induction os, buf, size, total using writeLoopAux.induct st with
  | case1 os buf size total h r e os' heq h2 =>
    intro h0 hts hsb
    have hw := osWrite_written os
      ((buf.drop total.toNat).take (size - total).toNat)
    rw [heq] at hw
    simp only at hw
    rw [Int.toNat_of_nonpos h2] at hw
    simp only [List.take_zero, List.append_nil] at hw
    rw [writeLoopAux, dif_pos h, heq]
    simp only [dif_pos h2]
    constructor
    · simp only [Bool.false_eq_true, false_iff]
      rw [hw]
      omega
    · exact ⟨0, by omega, by rw [hw]; simp⟩
  | case2 os buf size total h r e os' heq h2 ih =>
    intro h0 hts hsb
    have hw := osWrite_written os
      ((buf.drop total.toNat).take (size - total).toNat)
    have hle := osWrite_le os
      ((buf.drop total.toNat).take (size - total).toNat)
    rw [heq] at hw hle
    simp only at hw hle
    simp only [List.length_take, List.length_drop] at hle
    have hr1 : 1 ≤ r := by omega
    have htr : total + r ≤ size := by omega
    have hlw : os'.written.length = os.written.length + r.toNat := by
      rw [hw]
      simp only [List.length_append, List.length_take, List.length_drop]
      omega
    obtain ⟨ihiff, m', hm', ihw⟩ := ih (by omega) htr hsb
    rw [writeLoopAux, dif_pos h, heq]
    simp only [dif_neg h2]
    constructor
    · rw [ihiff]
      constructor <;> intro hh <;> omega
    · refine ⟨r.toNat + m', by omega, ?_⟩
      rw [ihw, hw, List.append_assoc]
      congr 1
      have h1 : ((buf.drop total.toNat).take (size - total).toNat).take
          r.toNat = (buf.drop total.toNat).take r.toNat := by
        rw [List.take_take]
        congr 1
        omega
      have h2' : buf.drop (total + r).toNat =
          (buf.drop total.toNat).drop r.toNat := by
        rw [List.drop_drop]
        congr 1
        omega
      rw [h1, h2', ← List.take_add]
  | case3 os buf size total h =>
    intro h0 hts hsb
    rw [writeLoopAux, dif_neg h]
    constructor
    · simp only [true_iff]
      omega
    · exact ⟨0, by omega, by simp⟩

/-- C7: on an open file sink, `Write(buf, size)` returns true iff all
`size` bytes were confirmed written by the OS (the written log grows by
exactly `size`), and everything it writes is a prefix-region of `buf` —
partial OS writes are resumed from the current offset rather than treated
as failure; an interrupted OS write (EINTR) is transparently retried; a
negative OS result aborts with `errno_` recorded, and a zero-progress OS
result aborts with `errno_` untouched. -/
theorem file_write_all_or_nothing (st : CopyingFileOutputStream)
    (buf : List UInt8) (size : Int) (hcl : st.is_closed_ = false) :
    (∀ os : OsFile, 0 ≤ size → size ≤ buf.length →
      (((CopyingFileOutputStream.Write st os buf size).1 = true) ↔
        (CopyingFileOutputStream.Write st os buf size).2.2.written.length =
          os.written.length + size.toNat) ∧
      (∃ m : Nat, m ≤ size.toNat ∧
        (CopyingFileOutputStream.Write st os buf size).2.2.written =
          os.written ++ buf.take m)) ∧
    (∀ (w : List (Int × Int)) (wr : List UInt8) (c : Nat)
        (cs : List (Int × Int)) (cc : Nat), 0 < size →
      CopyingFileOutputStream.Write st ⟨(-1, EINTR) :: w, wr, c, cs, cc⟩
          buf size =
        CopyingFileOutputStream.Write st ⟨w, wr, c + 1, cs, cc⟩ buf size) ∧
    (∀ (r e : Int) (w : List (Int × Int)) (wr : List UInt8) (c : Nat)
        (cs : List (Int × Int)) (cc : Nat), 0 < size → r < 0 → e ≠ EINTR →
      CopyingFileOutputStream.Write st ⟨(r, e) :: w, wr, c, cs, cc⟩
          buf size =
        (false, { st with errno_ := e }, ⟨w, wr, c + 1, cs, cc⟩)) ∧
    (∀ (e : Int) (w : List (Int × Int)) (wr : List UInt8) (c : Nat)
        (cs : List (Int × Int)) (cc : Nat), 0 < size →
      CopyingFileOutputStream.Write st ⟨(0, e) :: w, wr, c, cs, cc⟩
          buf size =
        (false, st, ⟨w, wr, c + 1, cs, cc⟩)) := by
  refine ⟨?_, ?_, ?_, ?_⟩
  · intro os h0 hsb
    have h := writeLoopAux_spec st os buf size 0 le_rfl h0 hsb
    simp only [sub_zero, Int.toNat_zero, List.drop_zero] at h
    simpa [CopyingFileOutputStream.Write, hcl] using h
  · intro w wr c cs cc hsz
    have hov : ∀ chunk : List UInt8,
        OsFile.osWrite ⟨(-1, EINTR) :: w, wr, c, cs, cc⟩ chunk =
          OsFile.osWrite ⟨w, wr, c + 1, cs, cc⟩ chunk := by
      intro chunk
      cases w with
      | nil => simp [OsFile.osWrite, runEintr, EINTR]
      | cons p rest =>
        rcases hq : runEintr (p :: rest) with ⟨r', e', rest', n⟩
        have hl : runEintr ((-1, EINTR) :: p :: rest) =
            (r', e', rest', n + 1) := by
          rw [runEintr, if_pos ⟨by norm_num, rfl⟩, hq]
        simp only [OsFile.osWrite, hl, hq]
        by_cases h0 : 0 < r' <;> simp [h0] <;> omega
    simp only [CopyingFileOutputStream.Write, hcl]
    conv_lhs => rw [writeLoopAux]
    conv_rhs => rw [writeLoopAux]
    rw [hov]
    simp [hsz]
  · intro r e w wr c cs cc hsz hr he
    have hw : OsFile.osWrite ⟨(r, e) :: w, wr, c, cs, cc⟩
        ((buf.drop (0 : Int).toNat).take ((size - 0)).toNat) =
        (r, e, ⟨w, wr, c + 1, cs, cc⟩) := by
      simp [OsFile.osWrite, runEintr, he, show ¬0 < r by omega]
    simp [CopyingFileOutputStream.Write, hcl]
    rw [writeLoopAux, dif_pos hsz, hw]
    simp [show r ≤ 0 by omega, hr, hcl]
  · intro e w wr c cs cc hsz
    have hw : OsFile.osWrite ⟨(0, e) :: w, wr, c, cs, cc⟩
        ((buf.drop (0 : Int).toNat).take ((size - 0)).toNat) =
        (0, e, ⟨w, wr, c + 1, cs, cc⟩) := by
      simp [OsFile.osWrite, runEintr]
    simp [CopyingFileOutputStream.Write, hcl]
    rw [writeLoopAux, dif_pos hsz, hw]
    simp

/-- Witness for `file_write_all_or_nothing`: an open sink whose OS accepts
4 bytes in two partial writes of 2 confirms all of `"ABCD"` and `Write`
returns true. -/
theorem file_write_witness :
    (CopyingFileOutputStream.Write (CopyingFileOutputStream.make 5)
      ⟨[(2, 0), (2, 0)], [], 0, [], 0⟩ [65, 66, 67, 68] 4).1 = true := by
  have h := (file_write_all_or_nothing (CopyingFileOutputStream.make 5)
    [65, 66, 67, 68] 4 rfl).1 ⟨[(2, 0), (2, 0)], [], 0, [], 0⟩
    (by decide) (by decide)
  refine h.1.mpr ?_
  simp [CopyingFileOutputStream.Write, CopyingFileOutputStream.make,
    writeLoopAux, OsFile.osWrite, runEintr]

/-! ## C8 — seek-fallback latching -/

/-- An OS read touches neither the lseek counter nor the seek script. -/
theorem osRead_seekfields (os : OsIn) (n : Int) :
    (os.osRead n).2.2.2.lseeks = os.lseeks ∧
    (os.osRead n).2.2.2.seekOk = os.seekOk := by
  cases hs : os.rscript with
  | nil => simp [OsIn.osRead, hs]
  | cons p rest =>
    rcases hr : runEintr (p :: rest) with ⟨r, e, rest', n'⟩
    simp only [OsIn.osRead, hs, hr]
    split_ifs <;> simp

/-- `CopyingFileInputStream` `Read` touches neither the lseek counter, the
seek script, nor the seek-failure latch. -/
theorem cfisRead_fields (p : CopyingFileInputStream × OsIn) (n : Int) :
    (cfisRead p n).2.2.2.lseeks = p.2.lseeks ∧
    (cfisRead p n).2.2.2.seekOk = p.2.seekOk ∧
    (cfisRead p n).2.2.1.previous_seek_failed_ =
      p.1.previous_seek_failed_ := by
  have h := osRead_seekfields p.2 n
  rcases hO : p.2.osRead n with ⟨r, e, bytes, os'⟩
  rw [hO] at h
  simp only at h
  by_cases hr : r < 0 <;> simp [cfisRead, hO, hr, h.1, h.2]

/-- The read-based fallback skip never attempts an lseek: it preserves the
lseek counter, the seek script and the seek-failure latch. -/
theorem fallback_preserves_seek (p : CopyingFileInputStream × OsIn)
    (count skipped : Int) :
    (defaultSkipAux cfisRead p count skipped).2.2.lseeks = p.2.lseeks ∧
    (defaultSkipAux cfisRead p count skipped).2.2.seekOk = p.2.seekOk ∧
    (defaultSkipAux cfisRead p count skipped).2.1.previous_seek_failed_ =
      p.1.previous_seek_failed_ := by
  induction p, count, skipped using defaultSkipAux.induct cfisRead with
  | case1 p count skipped h bytes snd p' heq h2 =>
    have hf := cfisRead_fields p (min (count - skipped) 4096)
    rw [heq] at hf
    simp only at hf
    rw [defaultSkipAux, dif_pos h, heq]
    simp only [dif_pos h2]
    exact hf
  | case2 p count skipped h bytes snd p' heq h2 ih =>
    have hf := cfisRead_fields p (min (count - skipped) 4096)
    rw [heq] at hf
    simp only at hf
    rw [defaultSkipAux, dif_pos h, heq]
    simp only [dif_neg h2]
    exact ⟨ih.1.trans hf.1, ih.2.1.trans hf.2.1, ih.2.2.trans hf.2.2⟩
  | case3 p count skipped h =>
    rw [defaultSkipAux, dif_neg h]
    exact ⟨rfl, rfl, rfl⟩

/-- C8: on the file-backed input source, a successful seek returns exactly
`count`; the first failed lseek latches `previous_seek_failed_` and already
that very `Skip` call uses the read-based fallback; once latched, `Skip`
never consumes a seek outcome nor bumps the lseek counter — it goes
straight to the fallback and stays latched — and across any sequence of
subsequent `Skip` calls the lseek counter never changes. -/
theorem seek_fallback_latching (st : CopyingFileInputStream) (os : OsIn)
    (count : Int) :
    (st.previous_seek_failed_ = false → ∀ rest, os.seekOk = true :: rest →
      CopyingFileInputStream.Skip st os count =
        (count, st, { os with seekOk := rest, lseeks := os.lseeks + 1 })) ∧
    (st.previous_seek_failed_ = false → ∀ rest, os.seekOk = false :: rest →
      CopyingFileInputStream.Skip st os count =
        ((CopyingInputStream.defaultSkip cfisRead
            ({ st with previous_seek_failed_ := true },
              { os with seekOk := rest, lseeks := os.lseeks + 1 })
            count).1,
          (CopyingInputStream.defaultSkip cfisRead
            ({ st with previous_seek_failed_ := true },
              { os with seekOk := rest, lseeks := os.lseeks + 1 })
            count).2.1,
          (CopyingInputStream.defaultSkip cfisRead
            ({ st with previous_seek_failed_ := true },
              { os with seekOk := rest, lseeks := os.lseeks + 1 })
            count).2.2) ∧
      (CopyingFileInputStream.Skip st os count).2.1.previous_seek_failed_ =
        true) ∧
    (st.previous_seek_failed_ = true →
      CopyingFileInputStream.Skip st os count =
        ((CopyingInputStream.defaultSkip cfisRead
            ({ st with previous_seek_failed_ := true }, os) count).1,
          (CopyingInputStream.defaultSkip cfisRead
            ({ st with previous_seek_failed_ := true }, os) count).2.1,
          (CopyingInputStream.defaultSkip cfisRead
            ({ st with previous_seek_failed_ := true }, os) count).2.2) ∧
      (CopyingFileInputStream.Skip st os count).2.2.lseeks = os.lseeks ∧
      (CopyingFileInputStream.Skip st os count).2.1.previous_seek_failed_ =
        true) ∧
    (st.previous_seek_failed_ = true → ∀ counts : List Int,
      (runSkips counts (st, os)).2.lseeks = os.lseeks) := by
  refine ⟨?_, ?_, ?_, ?_⟩
  · intro hnp rest hseek
    simp [CopyingFileInputStream.Skip, hnp, OsIn.lseekCur, hseek]
  · intro hnp rest hseek
    constructor
    · simp [CopyingFileInputStream.Skip, hnp, OsIn.lseekCur, hseek,
        CopyingInputStream.defaultSkip]
    · have hp := fallback_preserves_seek
        ({ st with previous_seek_failed_ := true },
          { os with seekOk := rest, lseeks := os.lseeks + 1 }) count 0
      simp [CopyingFileInputStream.Skip, hnp, OsIn.lseekCur, hseek,
        CopyingInputStream.defaultSkip, hp.2.2]
  · intro hp
    have hpr := fallback_preserves_seek
      ({ st with previous_seek_failed_ := true }, os) count 0
    refine ⟨?_, ?_, ?_⟩
    · simp [CopyingFileInputStream.Skip, hp,
        CopyingInputStream.defaultSkip]
    · simp [CopyingFileInputStream.Skip, hp,
        CopyingInputStream.defaultSkip, hpr.1]
    · simp [CopyingFileInputStream.Skip, hp,
        CopyingInputStream.defaultSkip, hpr.2.2]
  · intro hp counts
    induction counts generalizing st os with
    | nil => rfl
    | cons c cs ih =>
      rcases hS : CopyingFileInputStream.Skip st os c with ⟨k, st1, os1⟩
      have hfix := fallback_preserves_seek
        ({ st with previous_seek_failed_ := true }, os) c 0
      have hS' := hS
      simp only [CopyingFileInputStream.Skip, hp, if_true,
        CopyingInputStream.defaultSkip] at hS'
      have hst1 : st1.previous_seek_failed_ = true := by
        have := congrArg (fun t => t.2.1.previous_seek_failed_) hS'
        simp only at this
        rw [← this, hfix.2.2]
      have hos1 : os1.lseeks = os.lseeks := by
        have := congrArg (fun t => t.2.2.lseeks) hS'
        simp only at this
        rw [← this, hfix.1]
      have hrun : runSkips (c :: cs) (st, os) = runSkips cs (st1, os1) := by
        simp [runSkips, hS]
      rw [hrun, ih st1 os1 hst1, hos1]

/-- Witness for `seek_fallback_latching`: with no latched failure and a
succeeding scripted lseek, `Skip 7` returns exactly 7 after one lseek. -/
theorem seek_fallback_witness :
    CopyingFileInputStream.Skip (CopyingFileInputStream.make 3)
      ⟨[], [], 0, 0, [true], 0, [], 0⟩ 7 =
      (7, CopyingFileInputStream.make 3,
        ⟨[], [], 0, 0, [], 1, [], 0⟩) := by
  have h := (seek_fallback_latching (CopyingFileInputStream.make 3)
    ⟨[], [], 0, 0, [true], 0, [], 0⟩ 7).1 rfl [] rfl
  simpa using h

/-! ## C9 — close idempotence guard -/

/-- C9: the input-side guard is dead code.  On `CopyingFileInputStream`,
the first `Close` succeeds after one OS close, but a second `Close`
performs a second OS close (`ccalls` 1 → 2) and reports its success rather
than a misuse failure, because line 269 reads `if (is_closed_);` — an
empty statement; likewise `Read` after `Close` still issues an OS read
(`rcalls` 0 → 1) because of the identical dead guard at line 284.  The
sibling `CopyingFileOutputStream::Close` has the intended guard: its
second call returns false with no second OS close. -/
theorem close_guard_dead :
    c9c1.1 = true ∧ c9c1.2.1.is_closed_ = true ∧ c9c1.2.2.ccalls = 1 ∧
    c9c2.1 = true ∧ c9c2.2.2.ccalls = 2 ∧
    (cfisRead (c9c1.2.1, c9c1.2.2) 1).2.2.2.rcalls = 1 ∧
    (CopyingFileOutputStream.Close
      (CopyingFileOutputStream.Close (CopyingFileOutputStream.make 4)
        ⟨[], [], 0, [], 0⟩).2.1
      (CopyingFileOutputStream.Close (CopyingFileOutputStream.make 4)
        ⟨[], [], 0, [], 0⟩).2.2).1 = false ∧
    (CopyingFileOutputStream.Close
      (CopyingFileOutputStream.Close (CopyingFileOutputStream.make 4)
        ⟨[], [], 0, [], 0⟩).2.1
      (CopyingFileOutputStream.Close (CopyingFileOutputStream.make 4)
        ⟨[], [], 0, [], 0⟩).2.2).2.2.ccalls = 1 := by
  decide
